import Mathlib

/-!
Verification development for the Kurento `player2many` demo server
(`src/player2many/server.js`, with the older variant in `src/unnamed/part_000`).

The server is single-threaded JavaScript with asynchronous suspension at every
backend (Kurento Media Server) round-trip.  We embed it as a small-step system:

* `Cfg` is the whole process state: the globals of `server.js`
  (`global.kurento.{client,pipeline,playerEndpoint}` and `global.sessions`),
  the list of in-flight asynchronous continuations (`tasks`, one entry per
  handler suspended at an `await` of a backend call), and ghost observables
  (creation logs, candidate arrival/application order, emitted answers,
  log counters).
* A `Label` is either the arrival of a client signaling message (which runs the
  corresponding handler's first atomic segment, up to its first `await`), or
  the resolution of an in-flight backend call with a success/failure outcome
  (which runs the next atomic segment of that handler).
* `stepF` executes one label; `run` executes a list of labels.  All
  nondeterminism (message interleaving, backend success/failure) is in the
  label list.

Media objects (pipelines, endpoints, SDP answers) are identified by the `Nat`
they are allocated from the `nextId` counter.
-/

namespace P2M

/-- A per-viewer session, `class Session` of `server.js`: the consumer's
WebRtcEndpoint handle (null before creation) and the FIFO queue of ICE
candidates that arrived before the endpoint existed
(`consumerData.{webrtcEndpoint,pendingCandidates}`). -/
structure Session where
  webrtcEndpoint : Option Nat
  pendingCandidates : List Nat
deriving DecidableEq, Repr

/-- Ghost tags for the observable actions of `handleDebugDot`: initiating the
pipeline/playerEndpoint GStreamer-dot fetches and the two `Fs.writeFile`s. -/
inductive DotEvent where
  | fetchPipeline
  | writePipeline
  | fetchPlayer
  | writePlayer
deriving DecidableEq, Repr

/-- An in-flight asynchronous continuation: a handler of `server.js` suspended
at one of its `await`s of a backend call, together with the local variables the
rest of the handler still needs.

* `pubAwaitPipeline`/`pubAwaitPlayer`/`pubAwaitPlay`: `handleStartPublish`
  suspended at `client.create("MediaPipeline")`,
  `pipeline.create("PlayerEndpoint")`, `playerEndpoint.play()`.
* `offAwaitEndpoint sid off`: `handleSdpOffer` suspended at
  `pipeline.create("WebRtcEndpoint")` for session `sid` with offer `off`.
* `offAwaitConnect sid off we`: suspended at `playerEndpoint.connect(we)`.
* `offAwaitProcess sid off we`: suspended at `we.processOffer(off)`.
* `offAwaitGather sid we ans`: suspended at `we.gatherCandidates()`, holding
  the SDP answer `ans` already produced.
* `offDrainAwait sid ans`: the pending-candidate drain loop of
  `handleSdpOffer`, suspended at the `await handleIceCandidate(...)` of one
  shifted candidate.
* `iceAwaitAdd`: a standalone `handleIceCandidate` suspended at
  `webrtcEndpoint.addIceCandidate(...)`.
* `dbgAwaitPipelineDot`/`dbgAwaitPlayerDot`: `handleDebugDot` suspended at the
  two GStreamer-dot fetches.
* `dbgWrite forPipeline`: a fire-and-forget `Fs.writeFile` whose callback only
  logs. -/
inductive Task where
  | pubAwaitPipeline
  | pubAwaitPlayer (p : Nat)
  | pubAwaitPlay (e : Nat)
  | offAwaitEndpoint (sid off : Nat)
  | offAwaitConnect (sid off we : Nat)
  | offAwaitProcess (sid off we : Nat)
  | offAwaitGather (sid we ans : Nat)
  | offDrainAwait (sid ans : Nat)
  | iceAwaitAdd
  | dbgAwaitPipelineDot
  | dbgAwaitPlayerDot
  | dbgWrite (forPipeline : Bool)
deriving DecidableEq, Repr

/-- Which session a task belongs to (for the `handleSdpOffer` chain and its
drain loop, the tasks that can mutate that session's state). -/
def Task.sidOf : Task → Option Nat
  | .offAwaitEndpoint sid _ => some sid
  | .offAwaitConnect sid _ _ => some sid
  | .offAwaitProcess sid _ _ => some sid
  | .offAwaitGather sid _ _ => some sid
  | .offDrainAwait sid _ => some sid
  | _ => none

/-- The process state of `server.js` plus ghost observables. -/
structure Cfg where
  /-- `global.kurento.client` is connected (set by the startup callback). -/
  client : Bool
  /-- `global.kurento.pipeline`. -/
  pipeline : Option Nat
  /-- `global.kurento.playerEndpoint`. -/
  playerEndpoint : Option Nat
  /-- `global.sessions`, a `Map` from socket id to `Session`. -/
  sessions : List (Nat × Session)
  /-- In-flight asynchronous handler continuations. -/
  tasks : List Task
  /-- Fresh-id counter for backend-created objects and SDP answers. -/
  nextId : Nat
  /-- Ghost: every MediaPipeline the backend ever created, in order. -/
  createdPipelines : List Nat
  /-- Ghost: every PlayerEndpoint ever created. -/
  createdPlayers : List Nat
  /-- Ghost: every WebRtcEndpoint ever created. -/
  createdEndpoints : List Nat
  /-- Ghost: every `new Session(...)` stored in the registry, in order. -/
  sessionCreations : List Nat
  /-- Ghost: `(sid, candidate)` for each CLIENT_ICE_CANDIDATE, arrival order. -/
  arrivals : List (Nat × Nat)
  /-- Ghost: `(sid, candidate)` for each `addIceCandidate` initiated on the
  session's WebRtcEndpoint, in initiation order. -/
  applied : List (Nat × Nat)
  /-- Ghost: `(sid, answer)` for each emitted SERVER_SDP_ANSWER. -/
  answers : List (Nat × Nat)
  /-- Ghost: the observable actions of `handleDebugDot`. -/
  dotEvents : List DotEvent
  /-- Number of `console.error` records. -/
  errlogs : Nat
  /-- Number of `console.warn` records. -/
  warnlogs : Nat
deriving DecidableEq, Repr

/-- `Map.get`: look a session up by socket id. -/
def getSession : List (Nat × Session) → Nat → Option Session
  | [], _ => none
  | p :: rest, sid => if sid = p.1 then some p.2 else getSession rest sid

/-- `Map.set`: insert or replace the session stored under a socket id. -/
def setSession : List (Nat × Session) → Nat → Session → List (Nat × Session)
  | [], sid, s => [(sid, s)]
  | p :: rest, sid, s => if sid = p.1 then (p.1, s) :: rest else p :: setSession rest sid s

/-- In-place mutation of the session object stored under a socket id
(JavaScript sessions are mutated through the reference held by the map). -/
def updateSession : List (Nat × Session) → Nat → (Session → Session) → List (Nat × Session)
  | [], _, _ => []
  | p :: rest, sid, f => if sid = p.1 then (p.1, f p.2) :: rest else p :: updateSession rest sid f

/-- `session.consumerData.pendingCandidates.push(cand)`. -/
def Session.enqueue (cand : Nat) (s : Session) : Session :=
  { s with pendingCandidates := s.pendingCandidates ++ [cand] }

/-- Overwrite the pending-candidate queue (the effect of `shift()`). -/
def Session.withPending (q : List Nat) (s : Session) : Session :=
  { s with pendingCandidates := q }

/-- `session.consumerData.webrtcEndpoint = we`. -/
def Session.withEndpoint (we : Nat) (s : Session) : Session :=
  { s with webrtcEndpoint := some we }

/-- An inbound event of the step system: a client signaling message arriving
(running the handler's first atomic segment), or the i-th in-flight backend
call resolving with outcome `ok`. -/
inductive Label where
  | publish
  | offer (sid off : Nat)
  | ice (sid cand : Nat)
  | debugDot
  | resolve (i : Nat) (ok : Bool)
deriving DecidableEq, Repr

/-- `handleStartPublish` up to its first suspension: read
`global.kurento.client` and initiate `client.create("MediaPipeline")`.  If the
client is still null the call throws synchronously inside the `try` and is
logged (`server.js` lines 155-163). -/
def dispatchPublish (c : Cfg) : Cfg :=
  if c.client then { c with tasks := c.tasks ++ [Task.pubAwaitPipeline] }
  else { c with errlogs := c.errlogs + 1 }

/-- `handleSdpOffer` up to its first suspension (`server.js` lines 196-215):
read `global.kurento.pipeline`; reject a duplicate session with a warning;
otherwise construct and register the `Session`, then initiate
`pipeline.create("WebRtcEndpoint")` (which throws synchronously, caught and
logged, when the pipeline is still null). -/
def dispatchOffer (c : Cfg) (sid off : Nat) : Cfg :=
  if (getSession c.sessions sid).isSome then
    { c with warnlogs := c.warnlogs + 1 }
  else
    match c.pipeline with
    | none => { c with sessions := setSession c.sessions sid ⟨none, []⟩,
                       sessionCreations := c.sessionCreations ++ [sid],
                       errlogs := c.errlogs + 1 }
    | some _ => { c with sessions := setSession c.sessions sid ⟨none, []⟩,
                         sessionCreations := c.sessionCreations ++ [sid],
                         tasks := c.tasks ++ [Task.offAwaitEndpoint sid off] }

/-- `handleIceCandidate` up to its (possible) suspension (`server.js` lines
271-292): drop the candidate with a warning when no session exists; initiate
`addIceCandidate` when the endpoint exists; otherwise push the candidate onto
`pendingCandidates`.  The arrival is always recorded as a ghost observable. -/
def dispatchIce (c : Cfg) (sid cand : Nat) : Cfg :=
  match getSession c.sessions sid with
  | none => { c with arrivals := c.arrivals ++ [(sid, cand)],
                     warnlogs := c.warnlogs + 1 }
  | some s =>
    match s.webrtcEndpoint with
    | some _ => { c with arrivals := c.arrivals ++ [(sid, cand)],
                         applied := c.applied ++ [(sid, cand)],
                         tasks := c.tasks ++ [Task.iceAwaitAdd] }
    | none => { c with arrivals := c.arrivals ++ [(sid, cand)],
                       sessions := updateSession c.sessions sid (Session.enqueue cand) }

/-- `handleDebugDot` up to its first suspension (`server.js` lines 296-302):
initiate `global.kurento.pipeline.getGstreamerDot()`; with a null pipeline the
call throws synchronously inside the `try` and is logged. -/
def dispatchDebugDot (c : Cfg) : Cfg :=
  match c.pipeline with
  | none => { c with errlogs := c.errlogs + 1 }
  | some _ => { c with dotEvents := c.dotEvents ++ [DotEvent.fetchPipeline],
                       tasks := c.tasks ++ [Task.dbgAwaitPipelineDot] }

/-- One iteration boundary of the pending-candidate drain loop of
`handleSdpOffer` (`server.js` lines 259-266): with the queue empty, emit the
SERVER_SDP_ANSWER and finish; otherwise `shift()` the head candidate and run
`handleIceCandidate` on it (the endpoint exists at this point in every
reachable state, so `addIceCandidate` is initiated; the push-back branch
mirrors `handleIceCandidate`'s behaviour for a null endpoint).  Sessions are
never removed from the registry, so the `none` lookup branch is unreachable
(the loop holds the session object captured by the handler's closure). -/
def drainStep (c : Cfg) (sid ans : Nat) : Cfg × List Task :=
  match getSession c.sessions sid with
  | none => (c, [])
  | some s =>
    match s.pendingCandidates with
    | [] => ({ c with answers := c.answers ++ [(sid, ans)] }, [])
    | cand :: rest =>
      match s.webrtcEndpoint with
      | some _ => ({ c with sessions := updateSession c.sessions sid (Session.withPending rest),
                            applied := c.applied ++ [(sid, cand)] },
                   [Task.offDrainAwait sid ans])
      | none =>
        ({ c with sessions := updateSession (updateSession c.sessions sid (Session.withPending rest)) sid (Session.enqueue cand) },
         [Task.offDrainAwait sid ans])

/-- Resolve one in-flight backend call with outcome `ok`, running the next
atomic segment of the suspended handler.  Returns the updated state (its
`tasks` field untouched) together with the continuation tasks that replace the
resolved one.  Every failure outcome is handled the way the corresponding
`catch` block of `server.js` handles the rejected promise: a `console.error`
and an early return. -/
def taskStep (c : Cfg) : Task → Bool → Cfg × List Task
  | .pubAwaitPipeline, true =>
    ({ c with nextId := c.nextId + 1, pipeline := some c.nextId,
              createdPipelines := c.createdPipelines ++ [c.nextId] },
     [Task.pubAwaitPlayer c.nextId])
  | .pubAwaitPipeline, false => ({ c with errlogs := c.errlogs + 1 }, [])
  | .pubAwaitPlayer _, true =>
    ({ c with nextId := c.nextId + 1, playerEndpoint := some c.nextId,
              createdPlayers := c.createdPlayers ++ [c.nextId] },
     [Task.pubAwaitPlay c.nextId])
  | .pubAwaitPlayer _, false => ({ c with errlogs := c.errlogs + 1 }, [])
  | .pubAwaitPlay _, true => (c, [])
  | .pubAwaitPlay _, false => ({ c with errlogs := c.errlogs + 1 }, [])
  | .offAwaitEndpoint sid off, true =>
    match c.playerEndpoint with
    | none => ({ c with nextId := c.nextId + 1,
                        createdEndpoints := c.createdEndpoints ++ [c.nextId],
                        sessions := updateSession c.sessions sid (Session.withEndpoint c.nextId),
                        errlogs := c.errlogs + 1 }, [])
    | some _ => ({ c with nextId := c.nextId + 1,
                          createdEndpoints := c.createdEndpoints ++ [c.nextId],
                          sessions := updateSession c.sessions sid
                            (Session.withEndpoint c.nextId) },
                 [Task.offAwaitConnect sid off c.nextId])
  | .offAwaitEndpoint _ _, false => ({ c with errlogs := c.errlogs + 1 }, [])
  | .offAwaitConnect sid off we, true => (c, [Task.offAwaitProcess sid off we])
  | .offAwaitConnect _ _ _, false => ({ c with errlogs := c.errlogs + 1 }, [])
  | .offAwaitProcess sid _ we, true =>
    ({ c with nextId := c.nextId + 1 }, [Task.offAwaitGather sid we c.nextId])
  | .offAwaitProcess _ _ _, false => ({ c with errlogs := c.errlogs + 1 }, [])
  | .offAwaitGather sid _ ans, true => drainStep c sid ans
  | .offAwaitGather _ _ _, false => ({ c with errlogs := c.errlogs + 1 }, [])
  | .offDrainAwait sid ans, true => drainStep c sid ans
  | .offDrainAwait sid ans, false => drainStep { c with errlogs := c.errlogs + 1 } sid ans
  | .iceAwaitAdd, true => (c, [])
  | .iceAwaitAdd, false => ({ c with errlogs := c.errlogs + 1 }, [])
  | .dbgAwaitPipelineDot, true =>
    match c.playerEndpoint with
    | none => ({ c with dotEvents := c.dotEvents ++ [DotEvent.writePipeline],
                        errlogs := c.errlogs + 1 }, [Task.dbgWrite true])
    | some _ => ({ c with dotEvents := c.dotEvents ++ [DotEvent.writePipeline,
                            DotEvent.fetchPlayer] },
                 [Task.dbgWrite true, Task.dbgAwaitPlayerDot])
  | .dbgAwaitPipelineDot, false => ({ c with errlogs := c.errlogs + 1 }, [])
  | .dbgAwaitPlayerDot, true =>
    ({ c with dotEvents := c.dotEvents ++ [DotEvent.writePlayer] }, [Task.dbgWrite false])
  | .dbgAwaitPlayerDot, false => ({ c with errlogs := c.errlogs + 1 }, [])
  | .dbgWrite _, true => (c, [])
  | .dbgWrite _, false => ({ c with errlogs := c.errlogs + 1 }, [])

/-- One step of the whole system. -/
def stepF (c : Cfg) : Label → Cfg
  | .publish => dispatchPublish c
  | .offer sid off => dispatchOffer c sid off
  | .ice sid cand => dispatchIce c sid cand
  | .debugDot => dispatchDebugDot c
  | .resolve i ok =>
    match c.tasks[i]? with
    | none => c
    | some t =>
      { (taskStep c t ok).1 with
        tasks := c.tasks.take i ++ (taskStep c t ok).2 ++ c.tasks.drop (i + 1) }

/-- Run a sequence of labels. -/
def run (c : Cfg) : List Label → Cfg
  | [] => c
  | l :: ls => run (stepF c l) ls

/-- The state right after a successful startup: the Kurento client is
connected, everything else is empty. -/
def initCfg : Cfg :=
  { client := true, pipeline := none, playerEndpoint := none, sessions := [], tasks := [],
    nextId := 0, createdPipelines := [], createdPlayers := [], createdEndpoints := [],
    sessionCreations := [], arrivals := [], applied := [], answers := [], dotEvents := [],
    errlogs := 0, warnlogs := 0 }

/-- The state after one fully successful CLIENT_START_PUBLISH: pipeline `0`,
playerEndpoint `1`, playback started. -/
def pubCfg : Cfg :=
  run initCfg [Label.publish, Label.resolve 0 true, Label.resolve 0 true, Label.resolve 0 true]

/-- The candidates of one viewer, in arrival order. -/
def arrivalsOf (c : Cfg) (sid : Nat) : List Nat :=
  c.arrivals.filterMap (fun p => if p.1 = sid then some p.2 else none)

/-- The candidates applied to one viewer's endpoint, in application order. -/
def appliedOf (c : Cfg) (sid : Nat) : List Nat :=
  c.applied.filterMap (fun p => if p.1 = sid then some p.2 else none)

/-- The pending-candidate queue of one viewer (empty when no session). -/
def pendingOf (c : Cfg) (sid : Nat) : List Nat :=
  match getSession c.sessions sid with
  | none => []
  | some s => s.pendingCandidates

/-- The socket event names the connection handler registers listeners for
(`server.js` lines 118-129).  There is no listener for connection close. -/
def registeredEvents : List String :=
  ["CLIENT_START_PUBLISH", "CLIENT_SDP_OFFER", "CLIENT_ICE_CANDIDATE", "CLIENT_DEBUG_DOT"]

/-- What the `KurentoClient` constructor callback does at startup
(`server.js` lines 142-150). -/
inductive StartupAction where
  | exitProcess
  | connectClient
deriving DecidableEq, Repr

/-- The startup connectivity callback: a connection error exits the process;
otherwise the client is stored in `global.kurento.client`. -/
def startupOnError (err : Bool) : StartupAction :=
  if err then StartupAction.exitProcess else StartupAction.connectClient

/-! The older variant of the server, `src/unnamed/part_000`.  Its
`handleStartPublish` (lines 128-147) performs the same two backend creations
but has no `try`/`catch` at all: a rejected `await` escapes the async handler
as an unhandled promise rejection.  `playerEndpoint.play()` (line 146) is
fire-and-forget. -/

/-- The globals of `part_000` touched by its `handleStartPublish`. -/
structure P0State where
  pipeline : Option Nat
  playerEndpoint : Option Nat
  nextId : Nat
  createdPipelines : List Nat
  createdPlayers : List Nat
  playCalls : Nat
deriving DecidableEq, Repr

/-- `part_000`'s `handleStartPublish` suspended at one of its two `await`s. -/
inductive P0Task where
  | awaitPipeline
  | awaitPlayer (p : Nat)
deriving DecidableEq, Repr

/-- Resolve one `await` of `part_000`'s `handleStartPublish`.  There is no
`catch`: a failure outcome escapes the handler (`Except.error`), an unhandled
promise rejection. -/
def p0Resolve (c : P0State) (t : P0Task) (ok : Bool) :
    Except Unit (P0State × Option P0Task) :=
  match t with
  | .awaitPipeline =>
    if ok then
      let p := c.nextId
      Except.ok ({ c with nextId := p + 1, pipeline := some p,
                          createdPipelines := c.createdPipelines ++ [p] },
                 some (P0Task.awaitPlayer p))
    else Except.error ()
  | .awaitPlayer _ =>
    if ok then
      let e := c.nextId
      Except.ok ({ c with nextId := e + 1, playerEndpoint := some e,
                          createdPlayers := c.createdPlayers ++ [e],
                          playCalls := c.playCalls + 1 },
                 none)
    else Except.error ()

/-- The globals of `part_000` right after startup. -/
def p0Init : P0State :=
  { pipeline := none, playerEndpoint := none, nextId := 0,
    createdPipelines := [], createdPlayers := [], playCalls := 0 }

/-! ### Lemmas about the session registry -/

theorem getSession_setSession (m : List (Nat × Session)) (k : Nat) (v : Session) (sid : Nat) :
    getSession (setSession m k v) sid = if sid = k then some v else getSession m sid := by
  induction m with
  | nil => simp [setSession, getSession]
  | cons p rest ih =>
    by_cases hk : k = p.1
    · subst hk
      by_cases hs : sid = p.1 <;> simp [setSession, getSession, hs]
    · by_cases hs : sid = p.1
      · subst hs
        have h2 : ¬ p.1 = k := fun h => hk h.symm
        simp [setSession, getSession, hk, h2]
      · simp [setSession, getSession, hk, hs, ih]

theorem getSession_updateSession (m : List (Nat × Session)) (k : Nat) (f : Session → Session)
    (sid : Nat) :
    getSession (updateSession m k f) sid =
      if sid = k then (getSession m sid).map f else getSession m sid := by
  induction m with
  | nil => simp [updateSession, getSession]
  | cons p rest ih =>
    by_cases hk : k = p.1
    · subst hk
      by_cases hs : sid = p.1 <;> simp [updateSession, getSession, hs]
    · by_cases hs : sid = p.1
      · subst hs
        have h2 : ¬ p.1 = k := fun h => hk h.symm
        simp [updateSession, getSession, hk, h2]
      · simp [updateSession, getSession, hk, hs, ih]

theorem mem_of_getElemQ {α : Type} {l : List α} {i : Nat} {a : α} (h : l[i]? = some a) :
    a ∈ l := by
  induction l generalizing i with
  | nil => simp at h
  | cons hd tl ih =>
    cases i with
    | zero => simp at h; simp [h]
    | succ j =>
      simp only [List.getElem?_cons_succ] at h
      exact List.mem_cons_of_mem _ (ih h)

theorem isSome_getSession_update (m : List (Nat × Session)) (k : Nat) (f : Session → Session)
    (sid : Nat) (h : (getSession m sid).isSome) :
    (getSession (updateSession m k f) sid).isSome := by
  rw [getSession_updateSession]
  split
  · cases hg : getSession m sid with
    | none => rw [hg] at h; simp at h
    | some s => simp [hg]
  · exact h

theorem isSome_getSession_update_iff (m : List (Nat × Session)) (k : Nat) (f : Session → Session)
    (sid : Nat) :
    (getSession (updateSession m k f) sid).isSome = (getSession m sid).isSome := by
  rw [getSession_updateSession]
  split
  · cases hg : getSession m sid <;> simp
  · rfl

/-- The session exists and its remote endpoint has been assigned. -/
def epSomeM (m : List (Nat × Session)) (sid : Nat) : Prop :=
  ∃ s, getSession m sid = some s ∧ s.webrtcEndpoint.isSome

theorem epSomeM_update {m : List (Nat × Session)} {k : Nat} {f : Session → Session}
    (hf : ∀ s, s.webrtcEndpoint.isSome → (f s).webrtcEndpoint.isSome)
    {sid : Nat} (h : epSomeM m sid) : epSomeM (updateSession m k f) sid := by
  obtain ⟨s, hg, hep⟩ := h
  by_cases hk : sid = k
  · subst hk
    exact ⟨f s, by rw [getSession_updateSession]; simp [hg], hf s hep⟩
  · exact ⟨s, by rw [getSession_updateSession]; simp [hk, hg], hep⟩

theorem epSomeM_set {m : List (Nat × Session)} {k : Nat} {v : Session}
    (hk : getSession m k = none) {sid : Nat} (h : epSomeM m sid) :
    epSomeM (setSession m k v) sid := by
  obtain ⟨s, hg, hep⟩ := h
  have hne : ¬ sid = k := by
    intro he; rw [he, hk] at hg; exact Option.noConfusion hg
  exact ⟨s, by rw [getSession_setSession]; simp [hne, hg], hep⟩

/-- The per-task part of the global invariant: a `handleStartPublish`
continuation past the pipeline creation means the pipeline global is set; a
`handleSdpOffer` continuation means its session is registered, and past the
endpoint creation means the session's endpoint is assigned.  `pl` is the
pipeline global and `m` the session registry. -/
def TaskInv (pl : Option Nat) (m : List (Nat × Session)) : Task → Prop
  | .pubAwaitPipeline => True
  | .pubAwaitPlayer _ => pl.isSome
  | .pubAwaitPlay _ => True
  | .offAwaitEndpoint sid _ => (getSession m sid).isSome
  | .offAwaitConnect sid _ _ => epSomeM m sid
  | .offAwaitProcess sid _ _ => epSomeM m sid
  | .offAwaitGather sid _ _ => epSomeM m sid
  | .offDrainAwait sid _ => epSomeM m sid
  | .iceAwaitAdd => True
  | .dbgAwaitPipelineDot => True
  | .dbgAwaitPlayerDot => True
  | .dbgWrite _ => True

theorem TaskInv_mono (pl pl' : Option Nat) (m m' : List (Nat × Session))
    (hp : pl.isSome → pl'.isSome)
    (hs : ∀ sid, (getSession m sid).isSome → (getSession m' sid).isSome)
    (he : ∀ sid, epSomeM m sid → epSomeM m' sid) :
    ∀ t, TaskInv pl m t → TaskInv pl' m' t := by
  intro t h
  cases t with
  | pubAwaitPipeline => trivial
  | pubAwaitPlayer p => exact hp h
  | pubAwaitPlay e => trivial
  | offAwaitEndpoint sid off => exact hs sid h
  | offAwaitConnect sid off we => exact he sid h
  | offAwaitProcess sid off we => exact he sid h
  | offAwaitGather sid we ans => exact he sid h
  | offDrainAwait sid ans => exact he sid h
  | iceAwaitAdd => trivial
  | dbgAwaitPipelineDot => trivial
  | dbgAwaitPlayerDot => trivial
  | dbgWrite b => trivial

/-- The global inductive invariant of the reachable states of `server.js`:

* each identity is created at most once (`sessionCreations` has no duplicate),
  and exactly the created identities are registered;
* every pending-candidate queue is an order-preserving subsequence of that
  viewer's candidate arrivals;
* the per-task invariant holds for every in-flight continuation;
* the PlayerEndpoint global is only ever set when the pipeline global is. -/
structure Inv (c : Cfg) : Prop where
  creationsNodup : c.sessionCreations.Nodup
  creationsIff : ∀ sid, sid ∈ c.sessionCreations ↔ (getSession c.sessions sid).isSome
  pendingSub : ∀ sid s, getSession c.sessions sid = some s →
    List.Sublist s.pendingCandidates (arrivalsOf c sid)
  tasksInv : ∀ t ∈ c.tasks, TaskInv c.pipeline c.sessions t
  playerPipeline : c.playerEndpoint.isSome → c.pipeline.isSome

theorem isSome_getSession_set (m : List (Nat × Session)) (k : Nat) (v : Session)
    (sid : Nat) (h : (getSession m sid).isSome) :
    (getSession (setSession m k v) sid).isSome := by
  rw [getSession_setSession]
  split <;> simp [h]

theorem arrivalsOf_snoc {c c' : Cfg} {sid cand : Nat}
    (h : c'.arrivals = c.arrivals ++ [(sid, cand)]) (sid' : Nat) :
    arrivalsOf c' sid' = arrivalsOf c sid' ++ (if sid = sid' then [cand] else []) := by
  unfold arrivalsOf
  rw [h, List.filterMap_append]
  by_cases hs : sid = sid' <;> simp [hs]

theorem sublist_arrivals_ext {c c' : Cfg} {sid cand : Nat}
    (h : c'.arrivals = c.arrivals ++ [(sid, cand)]) (sid' : Nat) (q : List Nat)
    (hq : List.Sublist q (arrivalsOf c sid')) :
    List.Sublist q (arrivalsOf c' sid') := by
  rw [arrivalsOf_snoc h]
  exact hq.trans (List.sublist_append_left _ _)

theorem inv_dispatchPublish (c : Cfg) (h : Inv c) : Inv (dispatchPublish c) := by
  unfold dispatchPublish
  split
  · refine ⟨h.creationsNodup, h.creationsIff, h.pendingSub, ?_, h.playerPipeline⟩
    intro t ht
    rcases List.mem_append.mp ht with h1 | h1
    · exact h.tasksInv t h1
    · simp only [List.mem_singleton] at h1
      subst h1
      trivial
  · exact ⟨h.creationsNodup, h.creationsIff, h.pendingSub, h.tasksInv, h.playerPipeline⟩

theorem inv_dispatchOffer (c : Cfg) (sid off : Nat) (h : Inv c) :
    Inv (dispatchOffer c sid off) := by
  unfold dispatchOffer
  split
  · exact ⟨h.creationsNodup, h.creationsIff, h.pendingSub, h.tasksInv, h.playerPipeline⟩
  · rename_i hs
    have hnone : getSession c.sessions sid = none := by
      cases hg : getSession c.sessions sid with
      | none => rfl
      | some s => rw [hg] at hs; simp at hs
    have hnotin : sid ∉ c.sessionCreations := by
      intro hin
      have h2 := (h.creationsIff sid).mp hin
      rw [hnone] at h2
      simp at h2
    have hnodup : (c.sessionCreations ++ [sid]).Nodup := by
      simp [List.nodup_append, h.creationsNodup, hnotin]
    have hiff : ∀ sid', sid' ∈ c.sessionCreations ++ [sid] ↔
        (getSession (setSession c.sessions sid ⟨none, []⟩) sid').isSome := by
      intro sid'
      rw [List.mem_append, getSession_setSession]
      by_cases hq : sid' = sid
      · simp [hq]
      · simp [hq, h.creationsIff sid']
    have hpend : ∀ sid' s, getSession (setSession c.sessions sid ⟨none, []⟩) sid' = some s →
        List.Sublist s.pendingCandidates (arrivalsOf c sid') := by
      intro sid' s hg
      rw [getSession_setSession] at hg
      by_cases hq : sid' = sid
      · rw [if_pos hq] at hg
        cases hg
        exact List.nil_sublist _
      · rw [if_neg hq] at hg
        exact h.pendingSub sid' s hg
    have hmono : ∀ t, TaskInv c.pipeline c.sessions t →
        TaskInv c.pipeline (setSession c.sessions sid ⟨none, []⟩) t := by
      refine TaskInv_mono _ _ _ _ (fun hp => hp) ?_ ?_
      · intro sid' hq
        exact isSome_getSession_set _ _ _ _ hq
      · intro sid' hq
        exact epSomeM_set hnone hq
    split
    · exact ⟨hnodup, hiff, hpend, fun t ht => hmono t (h.tasksInv t ht), h.playerPipeline⟩
    · refine ⟨hnodup, hiff, hpend, ?_, h.playerPipeline⟩
      intro t ht
      rcases List.mem_append.mp ht with h1 | h1
      · exact hmono t (h.tasksInv t h1)
      · simp only [List.mem_singleton] at h1
        subst h1
        show (getSession (setSession c.sessions sid ⟨none, []⟩) sid).isSome
        rw [getSession_setSession]
        simp

theorem inv_dispatchIce (c : Cfg) (sid cand : Nat) (h : Inv c) :
    Inv (dispatchIce c sid cand) := by
  unfold dispatchIce
  split
  · rename_i hg
    refine ⟨h.creationsNodup, h.creationsIff, ?_, h.tasksInv, h.playerPipeline⟩
    intro sid' s hq
    exact sublist_arrivals_ext rfl sid' _ (h.pendingSub sid' s hq)
  · rename_i s hg
    split
    · refine ⟨h.creationsNodup, h.creationsIff, ?_, ?_, h.playerPipeline⟩
      · intro sid' s' hq
        exact sublist_arrivals_ext rfl sid' _ (h.pendingSub sid' s' hq)
      · intro t ht
        rcases List.mem_append.mp ht with h1 | h1
        · exact h.tasksInv t h1
        · simp only [List.mem_singleton] at h1
          subst h1
          trivial
    · rename_i hep
      refine ⟨h.creationsNodup, ?_, ?_, ?_, h.playerPipeline⟩
      · intro sid'
        dsimp only
        rw [isSome_getSession_update_iff]
        exact h.creationsIff sid'
      · intro sid' s' hq
        dsimp only at hq ⊢
        rw [arrivalsOf_snoc rfl]
        rw [getSession_updateSession] at hq
        by_cases hq2 : sid' = sid
        · subst hq2
          rw [if_pos rfl, hg] at hq
          have hs' : s' = Session.enqueue cand s := by
            cases hq
            rfl
          subst hs'
          rw [if_pos rfl]
          exact List.Sublist.append (h.pendingSub sid' s hg) (List.Sublist.refl _)
        · rw [if_neg hq2] at hq
          have hne : ¬ sid = sid' := fun h2 => hq2 h2.symm
          rw [if_neg hne, List.append_nil]
          exact h.pendingSub sid' s' hq
      · have hmono : ∀ t, TaskInv c.pipeline c.sessions t →
            TaskInv c.pipeline (updateSession c.sessions sid (Session.enqueue cand)) t := by
          refine TaskInv_mono _ _ _ _ (fun hp => hp) ?_ ?_
          · intro sid' hq
            exact isSome_getSession_update _ _ _ _ hq
          · intro sid' hq
            refine epSomeM_update ?_ hq
            intro s' hs'
            simpa [Session.enqueue] using hs'
        intro t ht
        exact hmono t (h.tasksInv t ht)

theorem inv_dispatchDebugDot (c : Cfg) (h : Inv c) : Inv (dispatchDebugDot c) := by
  unfold dispatchDebugDot
  split
  · exact ⟨h.creationsNodup, h.creationsIff, h.pendingSub, h.tasksInv, h.playerPipeline⟩
  · refine ⟨h.creationsNodup, h.creationsIff, h.pendingSub, ?_, h.playerPipeline⟩
    intro t ht
    rcases List.mem_append.mp ht with h1 | h1
    · exact h.tasksInv t h1
    · simp only [List.mem_singleton] at h1
      subst h1
      trivial

/-- The six facts needed to rebuild `Inv` after a task resolution: the
non-task invariant conjuncts of the post-state, monotonicity of `TaskInv` from
pre- to post-state, and `TaskInv` for the continuation tasks. -/
def ResolveOk (c c' : Cfg) (ks : List Task) : Prop :=
  c'.sessionCreations.Nodup ∧
  (∀ sid, sid ∈ c'.sessionCreations ↔ (getSession c'.sessions sid).isSome) ∧
  (∀ sid s, getSession c'.sessions sid = some s →
    List.Sublist s.pendingCandidates (arrivalsOf c' sid)) ∧
  (c'.playerEndpoint.isSome → c'.pipeline.isSome) ∧
  (∀ t', TaskInv c.pipeline c.sessions t' → TaskInv c'.pipeline c'.sessions t') ∧
  (∀ t' ∈ ks, TaskInv c'.pipeline c'.sessions t')

theorem inv_drainStep (c : Cfg) (sid ans : Nat) (h : Inv c)
    (hep : epSomeM c.sessions sid) :
    ResolveOk c (drainStep c sid ans).1 (drainStep c sid ans).2 := by
  obtain ⟨s0, hg0, hep0⟩ := hep
  unfold drainStep
  rw [hg0]
  dsimp only
  cases hq : s0.pendingCandidates with
  | nil =>
    exact ⟨h.creationsNodup, h.creationsIff, h.pendingSub, h.playerPipeline,
      fun t' h' => h', by intro t' h'; simp at h'⟩
  | cons cand rest =>
    cases hw : s0.webrtcEndpoint with
    | none => rw [hw] at hep0; simp at hep0
    | some we =>
      refine ⟨h.creationsNodup, ?_, ?_, h.playerPipeline, ?_, ?_⟩
      · intro sid'
        dsimp only
        rw [isSome_getSession_update_iff]
        exact h.creationsIff sid'
      · intro sid' s' hq'
        dsimp only at hq' ⊢
        rw [getSession_updateSession] at hq'
        by_cases he : sid' = sid
        · subst he
          rw [if_pos rfl, hg0] at hq'
          have hs' : s' = Session.withPending rest s0 := by
            cases hq'
            rfl
          subst hs'
          show List.Sublist rest (arrivalsOf c sid')
          have h2 := h.pendingSub sid' s0 hg0
          rw [hq] at h2
          exact (List.Sublist.cons cand (List.Sublist.refl rest)).trans h2
        · rw [if_neg he] at hq'
          exact h.pendingSub sid' s' hq'
      · have hmono : ∀ t', TaskInv c.pipeline c.sessions t' →
            TaskInv c.pipeline (updateSession c.sessions sid (Session.withPending rest)) t' := by
          refine TaskInv_mono _ _ _ _ (fun hp => hp) ?_ ?_
          · intro sid' hq'
            exact isSome_getSession_update _ _ _ _ hq'
          · intro sid' hq'
            refine epSomeM_update ?_ hq'
            intro s' hs'
            simpa [Session.withPending] using hs'
        exact hmono
      · intro t' ht'
        simp only [List.mem_singleton] at ht'
        subst ht'
        show epSomeM (updateSession c.sessions sid (Session.withPending rest)) sid
        refine epSomeM_update ?_ ⟨s0, hg0, hep0⟩
        intro s' hs'
        simpa [Session.withPending] using hs'

theorem inv_taskStep (c : Cfg) (t : Task) (ok : Bool) (h : Inv c)
    (ht : TaskInv c.pipeline c.sessions t) :
    ResolveOk c (taskStep c t ok).1 (taskStep c t ok).2 := by
  cases t with
  | pubAwaitPipeline =>
    cases ok with
    | true =>
      refine ⟨h.creationsNodup, h.creationsIff, h.pendingSub, fun _ => rfl, ?_, ?_⟩
      · exact TaskInv_mono _ _ _ _ (fun _ => rfl) (fun _ hx => hx) (fun _ hx => hx)
      · intro t' h'
        have h2 : t' = Task.pubAwaitPlayer c.nextId := List.mem_singleton.mp h'
        subst h2
        exact rfl
    | false =>
      exact ⟨h.creationsNodup, h.creationsIff, h.pendingSub, h.playerPipeline,
        fun t' h' => h', fun t' h' => absurd h' (List.not_mem_nil t')⟩
  | pubAwaitPlayer p =>
    cases ok with
    | true =>
      refine ⟨h.creationsNodup, h.creationsIff, h.pendingSub, fun _ => ht, ?_, ?_⟩
      · exact TaskInv_mono _ _ _ _ (fun hx => hx) (fun _ hx => hx) (fun _ hx => hx)
      · intro t' h'
        have h2 : t' = Task.pubAwaitPlay c.nextId := List.mem_singleton.mp h'
        subst h2
        trivial
    | false =>
      exact ⟨h.creationsNodup, h.creationsIff, h.pendingSub, h.playerPipeline,
        fun t' h' => h', fun t' h' => absurd h' (List.not_mem_nil t')⟩
  | pubAwaitPlay e =>
    cases ok with
    | true =>
      exact ⟨h.creationsNodup, h.creationsIff, h.pendingSub, h.playerPipeline,
        fun t' h' => h', fun t' h' => absurd h' (List.not_mem_nil t')⟩
    | false =>
      exact ⟨h.creationsNodup, h.creationsIff, h.pendingSub, h.playerPipeline,
        fun t' h' => h', fun t' h' => absurd h' (List.not_mem_nil t')⟩
  | offAwaitEndpoint sid off =>
    cases ok with
    | true =>
      have hup : ∀ sid', sid' ∈ c.sessionCreations ↔
          (getSession (updateSession c.sessions sid (Session.withEndpoint c.nextId)) sid').isSome := by
        intro sid'
        rw [isSome_getSession_update_iff]
        exact h.creationsIff sid'
      have hpend : ∀ sid' s,
          getSession (updateSession c.sessions sid (Session.withEndpoint c.nextId)) sid' = some s →
          List.Sublist s.pendingCandidates (arrivalsOf c sid') := by
        intro sid' s hg
        rw [getSession_updateSession] at hg
        by_cases he : sid' = sid
        · subst he
          rw [if_pos rfl] at hg
          cases hgg : getSession c.sessions sid' with
          | none => rw [hgg] at hg; simp at hg
          | some s2 =>
            rw [hgg] at hg
            have hs : s = Session.withEndpoint c.nextId s2 := by
              cases hg
              rfl
            subst hs
            exact h.pendingSub sid' s2 hgg
        · rw [if_neg he] at hg
          exact h.pendingSub sid' s hg
      have hmono : ∀ t', TaskInv c.pipeline c.sessions t' →
          TaskInv c.pipeline (updateSession c.sessions sid (Session.withEndpoint c.nextId)) t' := by
        refine TaskInv_mono _ _ _ _ (fun hx => hx) ?_ ?_
        · intro sid' hx
          exact isSome_getSession_update _ _ _ _ hx
        · intro sid' hx
          refine epSomeM_update ?_ hx
          intro s' hs'
          simp [Session.withEndpoint]
      have hep : epSomeM (updateSession c.sessions sid (Session.withEndpoint c.nextId)) sid := by
        have ht' : (getSession c.sessions sid).isSome := ht
        cases hgg : getSession c.sessions sid with
        | none => rw [hgg] at ht'; simp at ht'
        | some s2 =>
          refine ⟨Session.withEndpoint c.nextId s2, ?_, ?_⟩
          · rw [getSession_updateSession, if_pos rfl, hgg]
            rfl
          · simp [Session.withEndpoint]
      dsimp only [taskStep]
      cases hpe : c.playerEndpoint with
      | none =>
        refine ⟨h.creationsNodup, hup, hpend, ?_, hmono,
          fun t' h' => absurd h' (List.not_mem_nil t')⟩
        intro hx
        simp at hx
      | some pe =>
        refine ⟨h.creationsNodup, hup, hpend, ?_, hmono, ?_⟩
        · intro _
          exact h.playerPipeline (by rw [hpe]; rfl)
        · intro t' h'
          have h2 : t' = Task.offAwaitConnect sid off c.nextId := List.mem_singleton.mp h'
          subst h2
          exact hep
    | false =>
      exact ⟨h.creationsNodup, h.creationsIff, h.pendingSub, h.playerPipeline,
        fun t' h' => h', fun t' h' => absurd h' (List.not_mem_nil t')⟩
  | offAwaitConnect sid off we =>
    cases ok with
    | true =>
      refine ⟨h.creationsNodup, h.creationsIff, h.pendingSub, h.playerPipeline,
        fun t' h' => h', ?_⟩
      intro t' h'
      have h2 : t' = Task.offAwaitProcess sid off we := List.mem_singleton.mp h'
      subst h2
      exact ht
    | false =>
      exact ⟨h.creationsNodup, h.creationsIff, h.pendingSub, h.playerPipeline,
        fun t' h' => h', fun t' h' => absurd h' (List.not_mem_nil t')⟩
  | offAwaitProcess sid off we =>
    cases ok with
    | true =>
      refine ⟨h.creationsNodup, h.creationsIff, h.pendingSub, h.playerPipeline,
        fun t' h' => h', ?_⟩
      intro t' h'
      have h2 : t' = Task.offAwaitGather sid we c.nextId := List.mem_singleton.mp h'
      subst h2
      exact ht
    | false =>
      exact ⟨h.creationsNodup, h.creationsIff, h.pendingSub, h.playerPipeline,
        fun t' h' => h', fun t' h' => absurd h' (List.not_mem_nil t')⟩
  | offAwaitGather sid we ans =>
    cases ok with
    | true => exact inv_drainStep c sid ans h ht
    | false =>
      exact ⟨h.creationsNodup, h.creationsIff, h.pendingSub, h.playerPipeline,
        fun t' h' => h', fun t' h' => absurd h' (List.not_mem_nil t')⟩
  | offDrainAwait sid ans =>
    cases ok with
    | true => exact inv_drainStep c sid ans h ht
    | false =>
      have h2 : Inv { c with errlogs := c.errlogs + 1 } :=
        ⟨h.creationsNodup, h.creationsIff, h.pendingSub, h.tasksInv, h.playerPipeline⟩
      exact inv_drainStep { c with errlogs := c.errlogs + 1 } sid ans h2 ht
  | iceAwaitAdd =>
    cases ok with
    | true =>
      exact ⟨h.creationsNodup, h.creationsIff, h.pendingSub, h.playerPipeline,
        fun t' h' => h', fun t' h' => absurd h' (List.not_mem_nil t')⟩
    | false =>
      exact ⟨h.creationsNodup, h.creationsIff, h.pendingSub, h.playerPipeline,
        fun t' h' => h', fun t' h' => absurd h' (List.not_mem_nil t')⟩
  | dbgAwaitPipelineDot =>
    cases ok with
    | true =>
      dsimp only [taskStep]
      cases hpe : c.playerEndpoint with
      | none =>
        refine ⟨h.creationsNodup, h.creationsIff, h.pendingSub, ?_, fun t' h' => h', ?_⟩
        · intro hx
          simp at hx
        · intro t' h'
          have h2 : t' = Task.dbgWrite true := List.mem_singleton.mp h'
          subst h2
          trivial
      | some pe =>
        refine ⟨h.creationsNodup, h.creationsIff, h.pendingSub, ?_, fun t' h' => h', ?_⟩
        · intro _
          exact h.playerPipeline (by rw [hpe]; rfl)
        · intro t' h'
          rcases List.mem_cons.mp h' with h2 | h2
          · subst h2
            trivial
          · have h3 : t' = Task.dbgAwaitPlayerDot := List.mem_singleton.mp h2
            subst h3
            trivial
    | false =>
      exact ⟨h.creationsNodup, h.creationsIff, h.pendingSub, h.playerPipeline,
        fun t' h' => h', fun t' h' => absurd h' (List.not_mem_nil t')⟩
  | dbgAwaitPlayerDot =>
    cases ok with
    | true =>
      refine ⟨h.creationsNodup, h.creationsIff, h.pendingSub, h.playerPipeline,
        fun t' h' => h', ?_⟩
      intro t' h'
      have h2 : t' = Task.dbgWrite false := List.mem_singleton.mp h'
      subst h2
      trivial
    | false =>
      exact ⟨h.creationsNodup, h.creationsIff, h.pendingSub, h.playerPipeline,
        fun t' h' => h', fun t' h' => absurd h' (List.not_mem_nil t')⟩
  | dbgWrite b =>
    cases ok with
    | true =>
      exact ⟨h.creationsNodup, h.creationsIff, h.pendingSub, h.playerPipeline,
        fun t' h' => h', fun t' h' => absurd h' (List.not_mem_nil t')⟩
    | false =>
      exact ⟨h.creationsNodup, h.creationsIff, h.pendingSub, h.playerPipeline,
        fun t' h' => h', fun t' h' => absurd h' (List.not_mem_nil t')⟩


theorem inv_step (c : Cfg) (l : Label) (h : Inv c) : Inv (stepF c l) := by
  cases l with
  | publish => exact inv_dispatchPublish c h
  | offer sid off => exact inv_dispatchOffer c sid off h
  | ice sid cand => exact inv_dispatchIce c sid cand h
  | debugDot => exact inv_dispatchDebugDot c h
  | resolve i ok =>
    show Inv (match c.tasks[i]? with
      | none => c
      | some t => { (taskStep c t ok).1 with
          tasks := c.tasks.take i ++ (taskStep c t ok).2 ++ c.tasks.drop (i + 1) })
    cases hti : c.tasks[i]? with
    | none => exact h
    | some t =>
      have htmem : t ∈ c.tasks := mem_of_getElemQ hti
      obtain ⟨h1, h2, h3, h4, h5, h6⟩ := inv_taskStep c t ok h (h.tasksInv t htmem)
      refine ⟨h1, h2, h3, ?_, h4⟩
      intro t' ht'
      rcases List.mem_append.mp ht' with hx | hx
      · rcases List.mem_append.mp hx with hy | hy
        · exact h5 t' (h.tasksInv t' (List.take_subset _ _ hy))
        · exact h6 t' hy
      · exact h5 t' (h.tasksInv t' (List.drop_subset _ _ hx))

theorem inv_run (c : Cfg) (ls : List Label) (h : Inv c) : Inv (run c ls) := by
  induction ls generalizing c with
  | nil => exact h
  | cons l ls ih => exact ih (stepF c l) (inv_step c l h)

theorem inv_initCfg : Inv initCfg := by
  refine ⟨?_, ?_, ?_, ?_, ?_⟩
  · simp [initCfg]
  · intro sid; simp [initCfg, getSession]
  · intro sid s hg; simp [initCfg, getSession] at hg
  · intro t ht; simp [initCfg] at ht
  · simp [initCfg]

/-! ### Sessions are never removed, and a stuck session stays stuck -/

theorem appliedOf_snoc {c c' : Cfg} {sid cand : Nat}
    (h : c'.applied = c.applied ++ [(sid, cand)]) (sid' : Nat) :
    appliedOf c' sid' = appliedOf c sid' ++ (if sid = sid' then [cand] else []) := by
  unfold appliedOf
  rw [h, List.filterMap_append]
  by_cases hs : sid = sid' <;> simp [hs]

theorem offer_dup_warn (c : Cfg) (sid off : Nat) (h : (getSession c.sessions sid).isSome) :
    stepF c (Label.offer sid off) = { c with warnlogs := c.warnlogs + 1 } := by
  show dispatchOffer c sid off = _
  unfold dispatchOffer
  rw [if_pos h]

theorem taskStep_presence (c : Cfg) (t : Task) (ok : Bool) (sid : Nat)
    (h : (getSession c.sessions sid).isSome) :
    (getSession ((taskStep c t ok).1.sessions) sid).isSome := by
  have hds : ∀ (c2 : Cfg) (sid2 ans : Nat), (getSession c2.sessions sid).isSome →
      (getSession ((drainStep c2 sid2 ans).1.sessions) sid).isSome := by
    intro c2 sid2 ans h2
    unfold drainStep
    cases hg : getSession c2.sessions sid2 with
    | none => exact h2
    | some s =>
      dsimp only
      cases hq : s.pendingCandidates with
      | nil => exact h2
      | cons cand rest =>
        dsimp only
        cases hw : s.webrtcEndpoint with
        | some we => exact isSome_getSession_update _ _ _ _ h2
        | none => exact isSome_getSession_update _ _ _ _ (isSome_getSession_update _ _ _ _ h2)
  cases t with
  | pubAwaitPipeline => cases ok <;> exact h
  | pubAwaitPlayer p => cases ok <;> exact h
  | pubAwaitPlay e => cases ok <;> exact h
  | offAwaitEndpoint sid2 off =>
    cases ok with
    | true =>
      dsimp only [taskStep]
      cases c.playerEndpoint with
      | none => exact isSome_getSession_update _ _ _ _ h
      | some pe => exact isSome_getSession_update _ _ _ _ h
    | false => exact h
  | offAwaitConnect sid2 off we => cases ok <;> exact h
  | offAwaitProcess sid2 off we => cases ok <;> exact h
  | offAwaitGather sid2 we ans =>
    cases ok with
    | true => exact hds c sid2 ans h
    | false => exact h
  | offDrainAwait sid2 ans =>
    cases ok with
    | true => exact hds c sid2 ans h
    | false => exact hds { c with errlogs := c.errlogs + 1 } sid2 ans h
  | iceAwaitAdd => cases ok <;> exact h
  | dbgAwaitPipelineDot =>
    cases ok with
    | true =>
      dsimp only [taskStep]
      cases c.playerEndpoint with
      | none => exact h
      | some pe => exact h
    | false => exact h
  | dbgAwaitPlayerDot => cases ok <;> exact h
  | dbgWrite b => cases ok <;> exact h

theorem stepF_presence (c : Cfg) (l : Label) (sid : Nat)
    (h : (getSession c.sessions sid).isSome) :
    (getSession ((stepF c l).sessions) sid).isSome := by
  cases l with
  | publish =>
    show (getSession (dispatchPublish c).sessions sid).isSome
    unfold dispatchPublish
    split <;> exact h
  | offer sid2 off =>
    show (getSession (dispatchOffer c sid2 off).sessions sid).isSome
    unfold dispatchOffer
    split
    · exact h
    · split <;> exact isSome_getSession_set _ _ _ _ h
  | ice sid2 cand =>
    show (getSession (dispatchIce c sid2 cand).sessions sid).isSome
    unfold dispatchIce
    cases hg : getSession c.sessions sid2 with
    | none => exact h
    | some s =>
      dsimp only
      cases hw : s.webrtcEndpoint with
      | some we => exact h
      | none => exact isSome_getSession_update _ _ _ _ h
  | debugDot =>
    show (getSession (dispatchDebugDot c).sessions sid).isSome
    unfold dispatchDebugDot
    split <;> exact h
  | resolve i ok =>
    show (getSession (match c.tasks[i]? with
      | none => c
      | some t => { (taskStep c t ok).1 with
          tasks := c.tasks.take i ++ (taskStep c t ok).2 ++ c.tasks.drop (i + 1) }).sessions
      sid).isSome
    cases hti : c.tasks[i]? with
    | none => exact h
    | some t => exact taskStep_presence c t ok sid h

/-- A session that is registered with no endpoint and no in-flight offer
continuation: the state left behind when `handleSdpOffer` failed after
registering the session but before assigning its endpoint. -/
def Stuck (c : Cfg) (sid : Nat) : Prop :=
  (∃ s, getSession c.sessions sid = some s ∧ s.webrtcEndpoint = none) ∧
  (∀ t ∈ c.tasks, Task.sidOf t ≠ some sid)

/-- The candidates a label delivers for one viewer. -/
def iceOf (l : Label) (sid : Nat) : List Nat :=
  match l with
  | .ice sid2 cand => if sid2 = sid then [cand] else []
  | _ => []

/-- The candidates a label sequence delivers for one viewer, in order. -/
def iceInputs (ls : List Label) (sid : Nat) : List Nat :=
  match ls with
  | [] => []
  | l :: ls => iceOf l sid ++ iceInputs ls sid

theorem taskStep_other_sid (c : Cfg) (t : Task) (ok : Bool) (sid : Nat)
    (hsid : Task.sidOf t ≠ some sid) :
    getSession (taskStep c t ok).1.sessions sid = getSession c.sessions sid ∧
    appliedOf (taskStep c t ok).1 sid = appliedOf c sid ∧
    (∀ t' ∈ (taskStep c t ok).2, Task.sidOf t' ≠ some sid) := by
  have hds : ∀ (c2 : Cfg) (sid2 ans : Nat), sid2 ≠ sid →
      c2.sessions = c.sessions → c2.applied = c.applied →
      (getSession (drainStep c2 sid2 ans).1.sessions sid = getSession c.sessions sid ∧
       appliedOf (drainStep c2 sid2 ans).1 sid = appliedOf c sid ∧
       (∀ t' ∈ (drainStep c2 sid2 ans).2, Task.sidOf t' ≠ some sid)) := by
    intro c2 sid2 ans hne hsess happ
    unfold drainStep
    cases hg : getSession c2.sessions sid2 with
    | none =>
      refine ⟨by rw [hsess], ?_, by intro t' h'; exact absurd h' (List.not_mem_nil t')⟩
      unfold appliedOf
      rw [happ]
    | some s =>
      dsimp only
      cases hq : s.pendingCandidates with
      | nil =>
        refine ⟨by rw [hsess], ?_, by intro t' h'; exact absurd h' (List.not_mem_nil t')⟩
        unfold appliedOf
        rw [happ]
      | cons cand rest =>
        dsimp only
        have hsid2 : ∀ t' ∈ [Task.offDrainAwait sid2 ans], Task.sidOf t' ≠ some sid := by
          intro t' h' hc
          have h2 : t' = Task.offDrainAwait sid2 ans := List.mem_singleton.mp h'
          subst h2
          exact hne (Option.some.inj hc)
        cases hw : s.webrtcEndpoint with
        | some we =>
          refine ⟨?_, ?_, hsid2⟩
          · show getSession (updateSession c2.sessions sid2 (Session.withPending rest)) sid = _
            rw [getSession_updateSession, if_neg (fun h2 => hne h2.symm), hsess]
          · have happ2 : ({ c2 with
                sessions := updateSession c2.sessions sid2 (Session.withPending rest),
                applied := c2.applied ++ [(sid2, cand)] } : Cfg).applied
                = c.applied ++ [(sid2, cand)] := by
              rw [happ]
            rw [appliedOf_snoc happ2, if_neg hne, List.append_nil]
        | none =>
          refine ⟨?_, ?_, hsid2⟩
          · show getSession (updateSession (updateSession c2.sessions sid2
              (Session.withPending rest)) sid2 (Session.enqueue cand)) sid = _
            rw [getSession_updateSession, if_neg (fun h2 => hne h2.symm),
              getSession_updateSession, if_neg (fun h2 => hne h2.symm), hsess]
          · unfold appliedOf
            rw [happ]
  cases t with
  | pubAwaitPipeline =>
    cases ok with
    | true =>
      refine ⟨rfl, rfl, ?_⟩
      intro t' h' hc
      have h2 : t' = Task.pubAwaitPlayer c.nextId := List.mem_singleton.mp h'
      subst h2
      exact Option.noConfusion hc
    | false => exact ⟨rfl, rfl, fun t' h' => absurd h' (List.not_mem_nil t')⟩
  | pubAwaitPlayer p =>
    cases ok with
    | true =>
      refine ⟨rfl, rfl, ?_⟩
      intro t' h' hc
      have h2 : t' = Task.pubAwaitPlay c.nextId := List.mem_singleton.mp h'
      subst h2
      exact Option.noConfusion hc
    | false => exact ⟨rfl, rfl, fun t' h' => absurd h' (List.not_mem_nil t')⟩
  | pubAwaitPlay e =>
    cases ok <;> exact ⟨rfl, rfl, fun t' h' => absurd h' (List.not_mem_nil t')⟩
  | offAwaitEndpoint sid2 off =>
    have hne : sid2 ≠ sid := fun h2 => hsid (by rw [h2]; rfl)
    cases ok with
    | true =>
      dsimp only [taskStep]
      cases c.playerEndpoint with
      | none =>
        refine ⟨?_, rfl, fun t' h' => absurd h' (List.not_mem_nil t')⟩
        rw [getSession_updateSession, if_neg (fun h2 => hne h2.symm)]
      | some pe =>
        refine ⟨?_, rfl, ?_⟩
        · rw [getSession_updateSession, if_neg (fun h2 => hne h2.symm)]
        · intro t' h' hc
          have h2 : t' = Task.offAwaitConnect sid2 off c.nextId := List.mem_singleton.mp h'
          subst h2
          exact hne (Option.some.inj hc)
    | false => exact ⟨rfl, rfl, fun t' h' => absurd h' (List.not_mem_nil t')⟩
  | offAwaitConnect sid2 off we =>
    have hne : sid2 ≠ sid := fun h2 => hsid (by rw [h2]; rfl)
    cases ok with
    | true =>
      refine ⟨rfl, rfl, ?_⟩
      intro t' h' hc
      have h2 : t' = Task.offAwaitProcess sid2 off we := List.mem_singleton.mp h'
      subst h2
      exact hne (Option.some.inj hc)
    | false => exact ⟨rfl, rfl, fun t' h' => absurd h' (List.not_mem_nil t')⟩
  | offAwaitProcess sid2 off we =>
    have hne : sid2 ≠ sid := fun h2 => hsid (by rw [h2]; rfl)
    cases ok with
    | true =>
      refine ⟨rfl, rfl, ?_⟩
      intro t' h' hc
      have h2 : t' = Task.offAwaitGather sid2 we c.nextId := List.mem_singleton.mp h'
      subst h2
      exact hne (Option.some.inj hc)
    | false => exact ⟨rfl, rfl, fun t' h' => absurd h' (List.not_mem_nil t')⟩
  | offAwaitGather sid2 we ans =>
    have hne : sid2 ≠ sid := fun h2 => hsid (by rw [h2]; rfl)
    cases ok with
    | true => exact hds c sid2 ans hne rfl rfl
    | false => exact ⟨rfl, rfl, fun t' h' => absurd h' (List.not_mem_nil t')⟩
  | offDrainAwait sid2 ans =>
    have hne : sid2 ≠ sid := fun h2 => hsid (by rw [h2]; rfl)
    cases ok with
    | true => exact hds c sid2 ans hne rfl rfl
    | false => exact hds { c with errlogs := c.errlogs + 1 } sid2 ans hne rfl rfl
  | iceAwaitAdd =>
    cases ok <;> exact ⟨rfl, rfl, fun t' h' => absurd h' (List.not_mem_nil t')⟩
  | dbgAwaitPipelineDot =>
    cases ok with
    | true =>
      dsimp only [taskStep]
      cases c.playerEndpoint with
      | none =>
        refine ⟨rfl, rfl, ?_⟩
        intro t' h' hc
        have h2 : t' = Task.dbgWrite true := List.mem_singleton.mp h'
        subst h2
        exact Option.noConfusion hc
      | some pe =>
        refine ⟨rfl, rfl, ?_⟩
        intro t' h' hc
        rcases List.mem_cons.mp h' with h2 | h2
        · subst h2; exact Option.noConfusion hc
        · have h3 : t' = Task.dbgAwaitPlayerDot := List.mem_singleton.mp h2
          subst h3
          exact Option.noConfusion hc
    | false => exact ⟨rfl, rfl, fun t' h' => absurd h' (List.not_mem_nil t')⟩
  | dbgAwaitPlayerDot =>
    cases ok with
    | true =>
      refine ⟨rfl, rfl, ?_⟩
      intro t' h' hc
      have h2 : t' = Task.dbgWrite false := List.mem_singleton.mp h'
      subst h2
      exact Option.noConfusion hc
    | false => exact ⟨rfl, rfl, fun t' h' => absurd h' (List.not_mem_nil t')⟩
  | dbgWrite b =>
    cases ok <;> exact ⟨rfl, rfl, fun t' h' => absurd h' (List.not_mem_nil t')⟩

theorem pendingOf_congr {c : Cfg} {sid : Nat} {s : Session}
    (h : getSession c.sessions sid = some s) : pendingOf c sid = s.pendingCandidates := by
  unfold pendingOf
  rw [h]

theorem stuck_step (c : Cfg) (sid : Nat) (l : Label) (h : Stuck c sid) :
    Stuck (stepF c l) sid ∧
    pendingOf (stepF c l) sid = pendingOf c sid ++ iceOf l sid ∧
    appliedOf (stepF c l) sid = appliedOf c sid := by
  obtain ⟨⟨s0, hg0, hw0⟩, htasks⟩ := h
  cases l with
  | publish =>
    simp only [stepF]
    unfold dispatchPublish
    split
    · refine ⟨⟨⟨s0, hg0, hw0⟩, ?_⟩, ?_, rfl⟩
      · intro t ht
        rcases List.mem_append.mp ht with h1 | h1
        · exact htasks t h1
        · have h2 : t = Task.pubAwaitPipeline := List.mem_singleton.mp h1
          subst h2
          exact fun hc => Option.noConfusion hc
      · unfold pendingOf
        dsimp only
        rw [hg0]
        simp [iceOf]
    · refine ⟨⟨⟨s0, hg0, hw0⟩, htasks⟩, ?_, rfl⟩
      unfold pendingOf
      dsimp only
      rw [hg0]
      simp [iceOf]
  | offer sid2 off =>
    simp only [stepF]
    unfold dispatchOffer
    split
    · refine ⟨⟨⟨s0, hg0, hw0⟩, htasks⟩, ?_, rfl⟩
      unfold pendingOf
      dsimp only
      rw [hg0]
      simp [iceOf]
    · rename_i hs
      have hne : sid2 ≠ sid := by
        intro he
        subst he
        rw [hg0] at hs
        simp at hs
      have hget : getSession (setSession c.sessions sid2 ⟨none, []⟩) sid = some s0 := by
        rw [getSession_setSession, if_neg (fun h2 => hne h2.symm), hg0]
      split
      · refine ⟨⟨⟨s0, hget, hw0⟩, htasks⟩, ?_, rfl⟩
        unfold pendingOf
        dsimp only
        rw [hget, hg0]
        simp [iceOf]
      · refine ⟨⟨⟨s0, hget, hw0⟩, ?_⟩, ?_, rfl⟩
        · intro t ht
          rcases List.mem_append.mp ht with h1 | h1
          · exact htasks t h1
          · have h2 : t = Task.offAwaitEndpoint sid2 off := List.mem_singleton.mp h1
            subst h2
            intro hc
            exact hne (Option.some.inj hc)
        · unfold pendingOf
          dsimp only
          rw [hget, hg0]
          simp [iceOf]
  | ice sid2 cand =>
    simp only [stepF]
    unfold dispatchIce
    by_cases hq : sid2 = sid
    · subst hq
      rw [hg0]
      dsimp only
      rw [hw0]
      have hget : getSession (updateSession c.sessions sid2 (Session.enqueue cand)) sid2
          = some (Session.enqueue cand s0) := by
        rw [getSession_updateSession, if_pos rfl, hg0]
        rfl
      refine ⟨⟨⟨Session.enqueue cand s0, hget, hw0⟩, htasks⟩, ?_, rfl⟩
      unfold pendingOf
      dsimp only
      rw [hget, hg0]
      simp [iceOf, Session.enqueue]
    · have hioff : iceOf (Label.ice sid2 cand) sid = [] := by
        unfold iceOf
        dsimp only
        rw [if_neg hq]
      rw [hioff]
      cases hg2 : getSession c.sessions sid2 with
      | none =>
        refine ⟨⟨⟨s0, hg0, hw0⟩, htasks⟩, ?_, rfl⟩
        unfold pendingOf
        dsimp only
        rw [hg0]
        simp
      | some s2 =>
        dsimp only
        cases hw2 : s2.webrtcEndpoint with
        | some we2 =>
          refine ⟨⟨⟨s0, hg0, hw0⟩, ?_⟩, ?_, ?_⟩
          · intro t ht
            rcases List.mem_append.mp ht with h1 | h1
            · exact htasks t h1
            · have h2 : t = Task.iceAwaitAdd := List.mem_singleton.mp h1
              subst h2
              exact fun hc => Option.noConfusion hc
          · unfold pendingOf
            dsimp only
            rw [hg0]
            simp
          · rw [appliedOf_snoc rfl, if_neg hq, List.append_nil]
        | none =>
          have hget : getSession (updateSession c.sessions sid2 (Session.enqueue cand)) sid
              = some s0 := by
            rw [getSession_updateSession, if_neg (fun h2 => hq h2.symm), hg0]
          refine ⟨⟨⟨s0, hget, hw0⟩, htasks⟩, ?_, rfl⟩
          unfold pendingOf
          dsimp only
          rw [hget, hg0]
          simp
  | debugDot =>
    simp only [stepF]
    unfold dispatchDebugDot
    split
    · refine ⟨⟨⟨s0, hg0, hw0⟩, htasks⟩, ?_, rfl⟩
      unfold pendingOf
      dsimp only
      rw [hg0]
      simp [iceOf]
    · refine ⟨⟨⟨s0, hg0, hw0⟩, ?_⟩, ?_, rfl⟩
      · intro t ht
        rcases List.mem_append.mp ht with h1 | h1
        · exact htasks t h1
        · have h2 : t = Task.dbgAwaitPipelineDot := List.mem_singleton.mp h1
          subst h2
          exact fun hc => Option.noConfusion hc
      · unfold pendingOf
        dsimp only
        rw [hg0]
        simp [iceOf]
  | resolve i ok =>
    simp only [stepF]
    cases hti : c.tasks[i]? with
    | none =>
      refine ⟨⟨⟨s0, hg0, hw0⟩, htasks⟩, ?_, rfl⟩
      unfold pendingOf
      dsimp only
      rw [hg0]
      simp [iceOf]
    | some t =>
      have hne := htasks t (mem_of_getElemQ hti)
      obtain ⟨hsess, happ, hks⟩ := taskStep_other_sid c t ok sid hne
      have hget : getSession (taskStep c t ok).1.sessions sid = some s0 := by
        rw [hsess]
        exact hg0
      refine ⟨⟨⟨s0, hget, hw0⟩, ?_⟩, ?_, ?_⟩
      · intro t' ht'
        rcases List.mem_append.mp ht' with hx | hx
        · rcases List.mem_append.mp hx with hy | hy
          · exact htasks t' (List.take_subset _ _ hy)
          · exact hks t' hy
        · exact htasks t' (List.drop_subset _ _ hx)
      · unfold pendingOf
        dsimp only
        rw [hget, hg0]
        simp [iceOf]
      · exact happ


theorem stuck_run (c : Cfg) (sid : Nat) (ls : List Label) (h : Stuck c sid) :
    Stuck (run c ls) sid ∧
    pendingOf (run c ls) sid = pendingOf c sid ++ iceInputs ls sid ∧
    appliedOf (run c ls) sid = appliedOf c sid := by
  induction ls generalizing c with
  | nil => exact ⟨h, (List.append_nil _).symm, rfl⟩
  | cons l ls ih =>
    obtain ⟨h1, h2, h3⟩ := stuck_step c sid l h
    obtain ⟨h4, h5, h6⟩ := ih (stepF c l) h1
    refine ⟨h4, ?_, h6.trans h3⟩
    show pendingOf (run (stepF c l) ls) sid = pendingOf c sid ++ iceInputs (l :: ls) sid
    rw [h5, h2, List.append_assoc]
    exact rfl

/-! ### The drain loop -/

theorem stepF_resolve_single (c : Cfg) (t : Task) (ok : Bool) (h : c.tasks = [t]) :
    stepF c (Label.resolve 0 ok) =
      { (taskStep c t ok).1 with tasks := (taskStep c t ok).2 } := by
  show (match c.tasks[0]? with
    | none => c
    | some t2 => { (taskStep c t2 ok).1 with
        tasks := c.tasks.take 0 ++ (taskStep c t2 ok).2 ++ c.tasks.drop 1 }) = _
  rw [h]
  simp

theorem drain_iteration (c : Cfg) (sid ans ep cand : Nat) (rest : List Nat) (b : Bool)
    (hg : getSession c.sessions sid = some ⟨some ep, cand :: rest⟩)
    (htask : c.tasks = [Task.offDrainAwait sid ans]) :
    getSession (stepF c (Label.resolve 0 b)).sessions sid = some ⟨some ep, rest⟩ ∧
    (stepF c (Label.resolve 0 b)).tasks = [Task.offDrainAwait sid ans] ∧
    (stepF c (Label.resolve 0 b)).applied = c.applied ++ [(sid, cand)] ∧
    (stepF c (Label.resolve 0 b)).answers = c.answers ∧
    (stepF c (Label.resolve 0 b)).errlogs = c.errlogs + (if b then 0 else 1) := by
  rw [stepF_resolve_single c (Task.offDrainAwait sid ans) b htask]
  cases b with
  | true =>
    dsimp only [taskStep]
    unfold drainStep
    rw [hg]
    dsimp only
    refine ⟨?_, rfl, rfl, rfl, rfl⟩
    rw [getSession_updateSession, if_pos rfl, hg]
    rfl
  | false =>
    dsimp only [taskStep]
    unfold drainStep
    dsimp only
    rw [hg]
    dsimp only
    refine ⟨?_, rfl, rfl, rfl, rfl⟩
    rw [getSession_updateSession, if_pos rfl, hg]
    rfl

theorem drain_final (c : Cfg) (sid ans ep : Nat) (b : Bool)
    (hg : getSession c.sessions sid = some ⟨some ep, []⟩)
    (htask : c.tasks = [Task.offDrainAwait sid ans]) :
    getSession (stepF c (Label.resolve 0 b)).sessions sid = some ⟨some ep, []⟩ ∧
    (stepF c (Label.resolve 0 b)).tasks = [] ∧
    (stepF c (Label.resolve 0 b)).applied = c.applied ∧
    (stepF c (Label.resolve 0 b)).answers = c.answers ++ [(sid, ans)] ∧
    (stepF c (Label.resolve 0 b)).errlogs = c.errlogs + (if b then 0 else 1) := by
  rw [stepF_resolve_single c (Task.offDrainAwait sid ans) b htask]
  cases b with
  | true =>
    dsimp only [taskStep]
    unfold drainStep
    rw [hg]
    dsimp only
    exact ⟨hg, rfl, rfl, rfl, rfl⟩
  | false =>
    dsimp only [taskStep]
    unfold drainStep
    dsimp only
    rw [hg]
    dsimp only
    exact ⟨hg, rfl, rfl, rfl, rfl⟩

theorem drain_loop (q : List Nat) : ∀ (bs : List Bool) (c : Cfg) (sid ans ep : Nat),
    getSession c.sessions sid = some ⟨some ep, q⟩ →
    c.tasks = [Task.offDrainAwait sid ans] → bs.length = q.length + 1 →
    (getSession (run c (bs.map (Label.resolve 0))).sessions sid = some ⟨some ep, []⟩ ∧
     (run c (bs.map (Label.resolve 0))).applied
        = c.applied ++ q.map (fun cand => (sid, cand)) ∧
     (run c (bs.map (Label.resolve 0))).answers = c.answers ++ [(sid, ans)] ∧
     (run c (bs.map (Label.resolve 0))).tasks = [] ∧
     (run c (bs.map (Label.resolve 0))).errlogs = c.errlogs + bs.count false) := by
  induction q with
  | nil =>
    intro bs c sid ans ep hg htask hlen
    cases bs with
    | nil => simp at hlen
    | cons b bs2 =>
      have hbs2 : bs2 = [] := by
        simp at hlen
        exact hlen
      subst hbs2
      obtain ⟨f1, f2, f3, f4, f5⟩ := drain_final c sid ans ep b hg htask
      simp only [List.map_cons, List.map_nil, run]
      refine ⟨f1, by rw [f3]; simp, f4, f2, ?_⟩
      rw [f5]
      cases b <;> simp
  | cons cand rest ih =>
    intro bs c sid ans ep hg htask hlen
    cases bs with
    | nil => simp at hlen
    | cons b bs2 =>
      have hlen2 : bs2.length = rest.length + 1 := by
        simp at hlen
        exact hlen
      obtain ⟨f1, f2, f3, f4, f5⟩ := drain_iteration c sid ans ep cand rest b hg htask
      obtain ⟨ih1, ih2, ih3, ih4, ih5⟩ := ih bs2 (stepF c (Label.resolve 0 b)) sid ans ep f1 f2 hlen2
      simp only [List.map_cons, run]
      refine ⟨ih1, ?_, by rw [ih3, f4], ih4, ?_⟩
      · rw [ih2, f3]
        simp
      · rw [ih5, f5]
        cases b with
        | true => simp
        | false =>
          simp
          omega

/-! ### Helpers for the drain entered from `gatherCandidates` -/

theorem gather_final (c : Cfg) (sid we ans ep : Nat)
    (hg : getSession c.sessions sid = some ⟨some ep, []⟩)
    (htask : c.tasks = [Task.offAwaitGather sid we ans]) :
    getSession (stepF c (Label.resolve 0 true)).sessions sid = some ⟨some ep, []⟩ ∧
    (stepF c (Label.resolve 0 true)).tasks = [] ∧
    (stepF c (Label.resolve 0 true)).applied = c.applied ∧
    (stepF c (Label.resolve 0 true)).answers = c.answers ++ [(sid, ans)] ∧
    (stepF c (Label.resolve 0 true)).errlogs = c.errlogs := by
  rw [stepF_resolve_single c (Task.offAwaitGather sid we ans) true htask]
  dsimp only [taskStep]
  unfold drainStep
  rw [hg]
  dsimp only
  exact ⟨hg, rfl, rfl, rfl, rfl⟩

theorem gather_start (c : Cfg) (sid we ans ep cand : Nat) (rest : List Nat)
    (hg : getSession c.sessions sid = some ⟨some ep, cand :: rest⟩)
    (htask : c.tasks = [Task.offAwaitGather sid we ans]) :
    getSession (stepF c (Label.resolve 0 true)).sessions sid = some ⟨some ep, rest⟩ ∧
    (stepF c (Label.resolve 0 true)).tasks = [Task.offDrainAwait sid ans] ∧
    (stepF c (Label.resolve 0 true)).applied = c.applied ++ [(sid, cand)] ∧
    (stepF c (Label.resolve 0 true)).answers = c.answers ∧
    (stepF c (Label.resolve 0 true)).errlogs = c.errlogs := by
  rw [stepF_resolve_single c (Task.offAwaitGather sid we ans) true htask]
  dsimp only [taskStep]
  unfold drainStep
  rw [hg]
  dsimp only
  refine ⟨?_, rfl, rfl, rfl, rfl⟩
  rw [getSession_updateSession, if_pos rfl, hg]
  rfl

theorem drainStep_errlogs (c : Cfg) (sid ans : Nat) :
    (drainStep c sid ans).1.errlogs = c.errlogs := by
  unfold drainStep
  cases hg : getSession c.sessions sid with
  | none => rfl
  | some s =>
    dsimp only
    cases hq : s.pendingCandidates with
    | nil => rfl
    | cons cand rest =>
      dsimp only
      cases hw : s.webrtcEndpoint with
      | some we => rfl
      | none => rfl

/-! ### Claims -/

/-- C1 counterexample: two CLIENT_START_PUBLISH messages, the first fully
successful, create two MediaPipelines but only one PlayerEndpoint; the second
pipeline overwrites the global while the old PlayerEndpoint handle is kept.
This refutes "exactly one pipeline/sourceEndpoint pair is ever created". -/
theorem c1_counterex :
    (run initCfg [Label.publish, Label.resolve 0 true, Label.resolve 0 true,
      Label.resolve 0 true, Label.publish, Label.resolve 0 true]).createdPipelines = [0, 2] ∧
    (run initCfg [Label.publish, Label.resolve 0 true, Label.resolve 0 true,
      Label.resolve 0 true, Label.publish, Label.resolve 0 true]).createdPipelines.length ≠ 1 ∧
    (run initCfg [Label.publish, Label.resolve 0 true, Label.resolve 0 true,
      Label.resolve 0 true, Label.publish, Label.resolve 0 true]).createdPlayers = [1] ∧
    (run initCfg [Label.publish, Label.resolve 0 true, Label.resolve 0 true,
      Label.resolve 0 true, Label.publish, Label.resolve 0 true]).pipeline = some 2 ∧
    (run initCfg [Label.publish, Label.resolve 0 true, Label.resolve 0 true,
      Label.resolve 0 true, Label.publish, Label.resolve 0 true]).playerEndpoint = some 1 := by
  decide

/-- C1 (amended): `handleStartPublish` has no once-guard: every
CLIENT_START_PUBLISH unconditionally initiates a fresh MediaPipeline creation
(the existing pipeline global is never consulted), and every successful
creation appends a fresh pipeline to the creation log and overwrites
`global.kurento.pipeline`; hence N publish requests create up to N pipelines
rather than at most one. -/
theorem c1_no_publish_guard :
    (∀ c : Cfg, c.client = true →
      stepF c Label.publish = { c with tasks := c.tasks ++ [Task.pubAwaitPipeline] }) ∧
    (∀ (c : Cfg) (i : Nat), c.tasks[i]? = some Task.pubAwaitPipeline →
      (stepF c (Label.resolve i true)).createdPipelines = c.createdPipelines ++ [c.nextId] ∧
      (stepF c (Label.resolve i true)).pipeline = some c.nextId) := by
  constructor
  · intro c hc
    show dispatchPublish c = _
    unfold dispatchPublish
    rw [if_pos hc]
  · intro c i hti
    simp only [stepF]
    rw [hti]
    exact ⟨rfl, rfl⟩

/-- C1 witness: instantiating the amended claim at startup state. -/
theorem c1_no_publish_guard_witness :
    stepF initCfg Label.publish = { initCfg with tasks := [Task.pubAwaitPipeline] } ∧
    (stepF (run initCfg [Label.publish]) (Label.resolve 0 true)).createdPipelines = [0] := by
  constructor
  · exact c1_no_publish_guard.1 initCfg rfl
  · have h := (c1_no_publish_guard.2 (run initCfg [Label.publish]) 0 (by decide)).1
    rw [h]
    decide

/-- C2 counterexample: viewer 7 queues candidate 11 before its endpoint is
created; right after endpoint creation the endpoint exists while the queue
still holds 11 (refuting "the pending queue is empty at every point where the
endpoint exists"), and a candidate 22 arriving before the drain is applied
immediately, ahead of the earlier-arrived 11 (refuting FIFO application
order). -/
theorem c2_counterex :
    getSession (run initCfg [Label.publish, Label.resolve 0 true, Label.resolve 0 true,
      Label.resolve 0 true, Label.offer 7 100, Label.ice 7 11,
      Label.resolve 0 true]).sessions 7 = some ⟨some 2, [11]⟩ ∧
    arrivalsOf (run initCfg [Label.publish, Label.resolve 0 true, Label.resolve 0 true,
      Label.resolve 0 true, Label.offer 7 100, Label.ice 7 11, Label.resolve 0 true,
      Label.ice 7 22, Label.resolve 1 true, Label.resolve 0 true, Label.resolve 0 true,
      Label.resolve 0 true, Label.resolve 0 true]) 7 = [11, 22] ∧
    appliedOf (run initCfg [Label.publish, Label.resolve 0 true, Label.resolve 0 true,
      Label.resolve 0 true, Label.offer 7 100, Label.ice 7 11, Label.resolve 0 true,
      Label.ice 7 22, Label.resolve 1 true, Label.resolve 0 true, Label.resolve 0 true,
      Label.resolve 0 true, Label.resolve 0 true]) 7 = [22, 11] ∧
    ¬ List.Sublist
      (appliedOf (run initCfg [Label.publish, Label.resolve 0 true, Label.resolve 0 true,
        Label.resolve 0 true, Label.offer 7 100, Label.ice 7 11, Label.resolve 0 true,
        Label.ice 7 22, Label.resolve 1 true, Label.resolve 0 true, Label.resolve 0 true,
        Label.resolve 0 true, Label.resolve 0 true]) 7)
      (arrivalsOf (run initCfg [Label.publish, Label.resolve 0 true, Label.resolve 0 true,
        Label.resolve 0 true, Label.offer 7 100, Label.ice 7 11, Label.resolve 0 true,
        Label.ice 7 22, Label.resolve 1 true, Label.resolve 0 true, Label.resolve 0 true,
        Label.resolve 0 true, Label.resolve 0 true]) 7) := by
  decide

/-- C2 (amended): what does hold of candidate ordering: in every reachable
state, each viewer's pending queue lists its candidates in arrival order — an
order-preserving subsequence of that viewer's arrivals (so the drain, which
pops from the head, applies queued candidates in arrival order relative to
each other).  The queue may be non-empty while the endpoint exists, and an
immediately-applied candidate can overtake earlier queued ones. -/
theorem c2_queue_order (ls : List Label) (sid : Nat) :
    List.Sublist (pendingOf (run initCfg ls) sid) (arrivalsOf (run initCfg ls) sid) := by
  have h := inv_run initCfg ls inv_initCfg
  unfold pendingOf
  cases hg : getSession (run initCfg ls).sessions sid with
  | none => exact List.nil_sublist _
  | some s => exact h.pendingSub sid s hg

/-- C3: session creation is an atomic check-and-insert keyed by the socket id:
over every label sequence each identity is stored at most once (the creation
log never repeats an identity), and an offer arriving for an
already-registered identity leaves the whole state unchanged except for one
warning record — no session, no task, no backend call, no other effect. -/
theorem c3_session_unique :
    (∀ ls : List Label, (run initCfg ls).sessionCreations.Nodup) ∧
    (∀ (c : Cfg) (sid off : Nat), (getSession c.sessions sid).isSome →
      stepF c (Label.offer sid off) = { c with warnlogs := c.warnlogs + 1 }) := by
  constructor
  · intro ls
    exact (inv_run initCfg ls inv_initCfg).creationsNodup
  · exact offer_dup_warn

/-- C3 witness: two offers from the same socket create one session; the second
is a warning-only no-op. -/
theorem c3_session_unique_witness :
    (run initCfg [Label.offer 0 9, Label.offer 0 10]).sessionCreations.Nodup ∧
    (stepF (run initCfg [Label.offer 0 9]) (Label.offer 0 10)).warnlogs = 1 ∧
    (stepF (run initCfg [Label.offer 0 9]) (Label.offer 0 10)).sessionCreations = [0] := by
  refine ⟨c3_session_unique.1 _, ?_, ?_⟩
  · rw [c3_session_unique.2 (run initCfg [Label.offer 0 9]) 0 10 (by decide)]
    decide
  · rw [c3_session_unique.2 (run initCfg [Label.offer 0 9]) 0 10 (by decide)]
    decide

/-- C4 counterexample: a publish whose MediaPipeline creation succeeds and
whose PlayerEndpoint creation fails leaves the handler finished (no in-flight
task) with the pipeline global set and the playerEndpoint global absent:
partial publisher state is observable and persists, refuting "if any step of
publisher creation fails, both are left absent". -/
theorem c4_counterex :
    (run initCfg [Label.publish, Label.resolve 0 true, Label.resolve 0 false]).pipeline
      = some 0 ∧
    (run initCfg [Label.publish, Label.resolve 0 true,
      Label.resolve 0 false]).playerEndpoint = none ∧
    (run initCfg [Label.publish, Label.resolve 0 true, Label.resolve 0 false]).tasks = [] ∧
    (run initCfg [Label.publish, Label.resolve 0 true, Label.resolve 0 false]).errlogs = 1 := by
  decide

/-- C4 (amended): only one direction of the claimed invariant holds: in every
reachable state the source endpoint exists only if the pipeline exists.  The
converse fails — after a successful pipeline creation the pipeline global is
set while the PlayerEndpoint is still absent, observably so at the suspension
point and permanently so if the PlayerEndpoint creation fails. -/
theorem c4_player_needs_pipeline (ls : List Label) :
    (run initCfg ls).playerEndpoint.isSome → (run initCfg ls).pipeline.isSome :=
  (inv_run initCfg ls inv_initCfg).playerPipeline

/-- C4 witness: after a fully successful publish both globals are set. -/
theorem c4_player_needs_pipeline_witness :
    (run initCfg [Label.publish, Label.resolve 0 true,
      Label.resolve 0 true]).playerEndpoint.isSome = true ∧
    (run initCfg [Label.publish, Label.resolve 0 true,
      Label.resolve 0 true]).pipeline.isSome = true :=
  ⟨by decide, c4_player_needs_pipeline _ (by decide)⟩

/-- C5: with the publisher ready and no queued candidates, an offer emits
exactly one SERVER_SDP_ANSWER iff all four backend steps (WebRtcEndpoint
creation, connect to the publisher, processOffer, gatherCandidates) succeed;
any failure emits nothing and logs exactly one error.  When no pipeline exists
the handler fails at endpoint creation with one error and no answer; when the
pipeline exists but the PlayerEndpoint does not, it fails at the publisher
check with one more error and no answer. -/
theorem c5_answer_iff_success (sid off : Nat) (b1 b2 b3 b4 : Bool) :
    ((run pubCfg [Label.offer sid off, Label.resolve 0 b1, Label.resolve 0 b2,
        Label.resolve 0 b3, Label.resolve 0 b4]).answers = [(sid, 3)] ↔
      (b1 = true ∧ b2 = true ∧ b3 = true ∧ b4 = true)) ∧
    (¬ (b1 = true ∧ b2 = true ∧ b3 = true ∧ b4 = true) →
      (run pubCfg [Label.offer sid off, Label.resolve 0 b1, Label.resolve 0 b2,
        Label.resolve 0 b3, Label.resolve 0 b4]).answers = [] ∧
      (run pubCfg [Label.offer sid off, Label.resolve 0 b1, Label.resolve 0 b2,
        Label.resolve 0 b3, Label.resolve 0 b4]).errlogs = 1) ∧
    ((run initCfg [Label.offer sid off]).answers = [] ∧
     (run initCfg [Label.offer sid off]).errlogs = 1) ∧
    ((run (run initCfg [Label.publish, Label.resolve 0 true, Label.resolve 0 false])
        [Label.offer sid off, Label.resolve 0 true]).answers = [] ∧
     (run (run initCfg [Label.publish, Label.resolve 0 true, Label.resolve 0 false])
        [Label.offer sid off, Label.resolve 0 true]).errlogs = 2) := by
  cases b1 <;> cases b2 <;> cases b3 <;> cases b4 <;>
    simp [run, stepF, dispatchOffer, dispatchIce, dispatchPublish, dispatchDebugDot,
      taskStep, drainStep, getSession, setSession, updateSession, Session.withEndpoint,
      Session.withPending, Session.enqueue, pubCfg, initCfg]

/-- C5 witness: a gatherCandidates failure after three successful steps emits
no answer and logs one error. -/
theorem c5_answer_iff_success_witness :
    (run pubCfg [Label.offer 5 9, Label.resolve 0 true, Label.resolve 0 true,
      Label.resolve 0 true, Label.resolve 0 false]).answers = [] ∧
    (run pubCfg [Label.offer 5 9, Label.resolve 0 true, Label.resolve 0 true,
      Label.resolve 0 true, Label.resolve 0 false]).errlogs = 1 :=
  (c5_answer_iff_success 5 9 true true true false).2.1 (by decide)

/-- C6: entering the drain with the gatherCandidates resolution, every queued
candidate is applied in original arrival (queue) order, the queue ends empty,
the answer is emitted exactly once — and a failure applying one candidate only
adds an error record without aborting the rest of the drain (the error count
is the number of failed applications, independent of which ones failed). -/
theorem c6_drain (c : Cfg) (sid we ans ep : Nat) (q : List Nat) (bs : List Bool)
    (hg : getSession c.sessions sid = some ⟨some ep, q⟩)
    (htask : c.tasks = [Task.offAwaitGather sid we ans])
    (hlen : bs.length = q.length) :
    getSession (run c (Label.resolve 0 true :: bs.map (Label.resolve 0))).sessions sid
      = some ⟨some ep, []⟩ ∧
    (run c (Label.resolve 0 true :: bs.map (Label.resolve 0))).applied
      = c.applied ++ q.map (fun cand => (sid, cand)) ∧
    (run c (Label.resolve 0 true :: bs.map (Label.resolve 0))).answers
      = c.answers ++ [(sid, ans)] ∧
    (run c (Label.resolve 0 true :: bs.map (Label.resolve 0))).tasks = [] ∧
    (run c (Label.resolve 0 true :: bs.map (Label.resolve 0))).errlogs
      = c.errlogs + bs.count false := by
  cases q with
  | nil =>
    have hbs : bs = [] := List.length_eq_zero.mp hlen
    subst hbs
    obtain ⟨f1, f2, f3, f4, f5⟩ := gather_final c sid we ans ep hg htask
    simp only [List.map_nil, run]
    exact ⟨f1, by rw [f3]; simp, f4, f2, by rw [f5]; simp⟩
  | cons cand rest =>
    obtain ⟨f1, f2, f3, f4, f5⟩ := gather_start c sid we ans ep cand rest hg htask
    obtain ⟨l1, l2, l3, l4, l5⟩ := drain_loop rest bs (stepF c (Label.resolve 0 true))
      sid ans ep f1 f2 (by rw [hlen]; rfl)
    simp only [run]
    refine ⟨l1, ?_, by rw [l3, f4], l4, ?_⟩
    · rw [l2, f3]
      simp
    · rw [l5, f5]

/-- C6 witness: one queued candidate whose application fails: it is still
shifted, the answer is still emitted, and one error is logged. -/
theorem c6_drain_witness :
    (run (run pubCfg [Label.offer 7 100, Label.ice 7 11, Label.resolve 0 true,
        Label.resolve 0 true, Label.resolve 0 true])
      [Label.resolve 0 true, Label.resolve 0 false]).answers = [(7, 3)] ∧
    (run (run pubCfg [Label.offer 7 100, Label.ice 7 11, Label.resolve 0 true,
        Label.resolve 0 true, Label.resolve 0 true])
      [Label.resolve 0 true, Label.resolve 0 false]).applied = [(7, 11)] ∧
    (run (run pubCfg [Label.offer 7 100, Label.ice 7 11, Label.resolve 0 true,
        Label.resolve 0 true, Label.resolve 0 true])
      [Label.resolve 0 true, Label.resolve 0 false]).errlogs = 1 := by
  have h := c6_drain (run pubCfg [Label.offer 7 100, Label.ice 7 11, Label.resolve 0 true,
    Label.resolve 0 true, Label.resolve 0 true]) 7 2 3 2 [11] [false]
    (by decide) (by decide) (by decide)
  simp only [List.map_cons, List.map_nil] at h
  obtain ⟨h1, h2, h3, h4, h5⟩ := h
  refine ⟨?_, ?_, ?_⟩
  · rw [h3]
    decide
  · rw [h2]
    decide
  · rw [h5]
    decide

/-- C7 counterexample: the connection handler registers listeners only for the
four client messages — there is no disconnect/close listener at all — and a
session with a stale queued candidate survives while a later offer under the
same identity is rejected as a duplicate instead of starting fresh. -/
theorem c7_counterex :
    "disconnect" ∉ registeredEvents ∧
    getSession (run initCfg [Label.offer 0 9, Label.ice 0 1,
      Label.offer 0 10]).sessions 0 = some ⟨none, [1]⟩ ∧
    (run initCfg [Label.offer 0 9, Label.ice 0 1, Label.offer 0 10]).warnlogs = 1 := by
  refine ⟨by decide, by decide, by decide⟩

/-- C7 (amended): `server.js` registers no close/disconnect handler, and no
transition of the system ever removes a session from the registry: once an
identity is registered it stays registered forever (so a reconnect reusing the
identity is rejected as a duplicate and the old state persists). -/
theorem c7_no_session_removal :
    "disconnect" ∉ registeredEvents ∧
    (∀ (c : Cfg) (l : Label) (sid : Nat), (getSession c.sessions sid).isSome →
      (getSession (stepF c l).sessions sid).isSome) :=
  ⟨by decide, fun c l sid h => stepF_presence c l sid h⟩

/-- C7 witness: a registered session survives a step. -/
theorem c7_no_session_removal_witness :
    (getSession (stepF (run initCfg [Label.offer 0 9]) Label.publish).sessions 0).isSome
      = true :=
  c7_no_session_removal.2 (run initCfg [Label.offer 0 9]) Label.publish 0 (by decide)

/-- C8 counterexample: when fetching the pipeline graph fails, the handler
returns immediately: the run ends with no in-flight task, only the pipeline
fetch ever attempted (no `fetchPlayer` event), and one error logged.  The
pipeline-graph failure thus prevents the attempt on the endpoint graph,
refuting the claimed independence of the two exports. -/
theorem c8_counterex :
    (run pubCfg [Label.debugDot, Label.resolve 0 false]).dotEvents
      = [DotEvent.fetchPipeline] ∧
    (run pubCfg [Label.debugDot, Label.resolve 0 false]).tasks = [] ∧
    (run pubCfg [Label.debugDot, Label.resolve 0 false]).errlogs = 1 := by
  decide

/-- C8 (amended): the two exports are sequential, not independent: a failure
fetching the pipeline graph aborts the handler before the endpoint graph is
attempted.  What does hold: once the pipeline graph is obtained, its file
write is initiated fire-and-forget and the endpoint-graph fetch is attempted
in the same segment, regardless of the write's outcome; an endpoint-graph
fetch failure only logs and leaves the pending pipeline write untouched. -/
theorem c8_dump_order :
    (∀ c : Cfg, c.tasks = [Task.dbgAwaitPipelineDot] → c.playerEndpoint.isSome →
      (stepF c (Label.resolve 0 true)).dotEvents
        = c.dotEvents ++ [DotEvent.writePipeline, DotEvent.fetchPlayer] ∧
      (stepF c (Label.resolve 0 true)).tasks
        = [Task.dbgWrite true, Task.dbgAwaitPlayerDot]) ∧
    (∀ c : Cfg, c.tasks = [Task.dbgWrite true, Task.dbgAwaitPlayerDot] →
      stepF c (Label.resolve 1 false)
        = { c with errlogs := c.errlogs + 1, tasks := [Task.dbgWrite true] }) ∧
    (∀ c : Cfg, c.tasks = [Task.dbgAwaitPipelineDot] →
      stepF c (Label.resolve 0 false)
        = { c with errlogs := c.errlogs + 1, tasks := [] }) := by
  refine ⟨?_, ?_, ?_⟩
  · intro c ht hpe
    rw [stepF_resolve_single c Task.dbgAwaitPipelineDot true ht]
    dsimp only [taskStep]
    cases hpe2 : c.playerEndpoint with
    | none => rw [hpe2] at hpe; simp at hpe
    | some pe => exact ⟨rfl, rfl⟩
  · intro c ht
    simp only [stepF]
    rw [ht]
    simp only [List.getElem?_cons_succ, List.getElem?_cons_zero]
    dsimp only [taskStep]
    simp
  · intro c ht
    rw [stepF_resolve_single c Task.dbgAwaitPipelineDot false ht]
    dsimp only [taskStep]

/-- C8 witness: a successful pipeline-graph fetch initiates the write and the
endpoint-graph fetch together. -/
theorem c8_dump_order_witness :
    (stepF (run pubCfg [Label.debugDot]) (Label.resolve 0 true)).dotEvents
      = [DotEvent.fetchPipeline, DotEvent.writePipeline, DotEvent.fetchPlayer] := by
  have h := (c8_dump_order.1 (run pubCfg [Label.debugDot]) (by decide) (by decide)).1
  rw [h]
  decide

/-- C9 counterexample: in the `part_000` variant, `handleStartPublish` has no
`try`/`catch`: a failed backend call escapes the async handler as an unhandled
promise rejection instead of being caught at the handler boundary and logged,
refuting the claim for that cited handler. -/
theorem c9_counterex :
    p0Resolve p0Init P0Task.awaitPipeline false = Except.error () ∧
    p0Resolve p0Init (P0Task.awaitPlayer 0) false = Except.error () :=
  ⟨rfl, rfl⟩

/-- C9 (amended): in `server.js` every backend-call failure inside a message
handler is caught at that handler's boundary and converted to exactly one
`console.error` (the resolution step is total and increments the error count
by one); and the startup connectivity callback is the only fatal path: it
exits the process on error and stores the client otherwise.  The `part_000`
variant's publish handler does not catch (see the counterexample). -/
theorem c9_failures_logged :
    (∀ (c : Cfg) (i : Nat) (t : Task), c.tasks[i]? = some t →
      (stepF c (Label.resolve i false)).errlogs = c.errlogs + 1) ∧
    startupOnError true = StartupAction.exitProcess ∧
    startupOnError false = StartupAction.connectClient := by
  refine ⟨?_, rfl, rfl⟩
  intro c i t hti
  simp only [stepF]
  rw [hti]
  cases t with
  | offDrainAwait sid ans =>
    show (drainStep { c with errlogs := c.errlogs + 1 } sid ans).1.errlogs = c.errlogs + 1
    rw [drainStep_errlogs]
  | pubAwaitPipeline => rfl
  | pubAwaitPlayer p => rfl
  | pubAwaitPlay e => rfl
  | offAwaitEndpoint sid off => rfl
  | offAwaitConnect sid off we => rfl
  | offAwaitProcess sid off we => rfl
  | offAwaitGather sid we ans => rfl
  | iceAwaitAdd => rfl
  | dbgAwaitPipelineDot => rfl
  | dbgAwaitPlayerDot => rfl
  | dbgWrite b => rfl

/-- C9 witness: a failed pipeline creation in `server.js` is logged, not
propagated. -/
theorem c9_failures_logged_witness :
    (stepF (run initCfg [Label.publish]) (Label.resolve 0 false)).errlogs = 1 := by
  have h := c9_failures_logged.1 (run initCfg [Label.publish]) 0 Task.pubAwaitPipeline
    (by decide)
  rw [h]
  decide

/-- C10: a session registered with no endpoint and no in-flight offer
continuation (the state left when `handleSdpOffer` failed after registering
the session but before assigning the endpoint) is stuck forever: under every
future label sequence it remains registered with a null endpoint, every later
CLIENT_ICE_CANDIDATE from it is appended to the pending queue (exactly the
future arrivals, in order, never applied or drained), and every later
CLIENT_SDP_OFFER from it is rejected as a duplicate with only a warning. -/
theorem c10_stuck_forever (c : Cfg) (sid : Nat) (h : Stuck c sid) (ls : List Label) :
    Stuck (run c ls) sid ∧
    pendingOf (run c ls) sid = pendingOf c sid ++ iceInputs ls sid ∧
    appliedOf (run c ls) sid = appliedOf c sid ∧
    (∀ off, stepF (run c ls) (Label.offer sid off)
      = { run c ls with warnlogs := (run c ls).warnlogs + 1 }) := by
  obtain ⟨h1, h2, h3⟩ := stuck_run c sid ls h
  refine ⟨h1, h2, h3, ?_⟩
  intro off
  obtain ⟨⟨s, hg, _⟩, _⟩ := h1
  refine offer_dup_warn _ sid off ?_
  rw [hg]
  rfl

/-- C10 witness: an offer with no pipeline leaves a stuck session; a later
candidate is queued, never applied. -/
theorem c10_stuck_forever_witness :
    Stuck (run (run initCfg [Label.offer 0 9]) [Label.ice 0 4]) 0 ∧
    pendingOf (run (run initCfg [Label.offer 0 9]) [Label.ice 0 4]) 0 = [4] ∧
    appliedOf (run (run initCfg [Label.offer 0 9]) [Label.ice 0 4]) 0 = [] := by
  have hstuck : Stuck (run initCfg [Label.offer 0 9]) 0 := by
    refine ⟨⟨⟨none, []⟩, by decide, rfl⟩, ?_⟩
    intro t ht
    have he : (run initCfg [Label.offer 0 9]).tasks = [] := by decide
    rw [he] at ht
    exact absurd ht (List.not_mem_nil t)
  have h := c10_stuck_forever (run initCfg [Label.offer 0 9]) 0 hstuck [Label.ice 0 4]
  exact ⟨h.1, h.2.1.trans (by decide), h.2.2.1.trans (by decide)⟩

end P2M
